import Mathlib

/-!
# Verification of the user record service (`src/main.py`)

Shallow embedding of the FastAPI service in `src/main.py`:

* the `users` table is a list of records (the schema puts a unique index on
  `name`; states reachable through the service keep names distinct);
* each endpoint becomes a pure function from its input and the persisted
  table to a response (`Except HttpError α` models "return value or raised
  `HTTPException`") and the resulting table;
* the bulk-upload endpoint builds its SQL by textual interpolation
  (f-strings); we additionally record the trace of commands it hands to
  `db.execute`, distinguishing parameterized statements from raw assembled
  strings.  A raw statement whose interpolated `name` contains a single
  quote is malformed, so the driver raises; this surfaces as the endpoint's
  `except Exception` branch (HTTP 500) with the uncommitted session rolled
  back on `db.close()`.
* `model.py` (the pydantic `UserCreate` input shape) is not part of the
  sources; it is modelled from the spec below.
-/

/-- A persisted row of the `users` table (the surrogate `id` column plays no
role in the logic and is omitted). -/
structure Record where
  name : String
  age : Int
deriving DecidableEq, Repr

/-- The persisted `users` table. -/
abbrev Db := List Record

/-- An `HTTPException`: status code plus detail message. -/
structure HttpError where
  status : Nat
  detail : String
deriving DecidableEq, Repr

/-- The single-quote character, used by the f-string SQL of the upload path. -/
def sqlQuote : Char := Char.ofNat 39

/-- The single-quote character as a string. -/
def sqS : String := String.singleton sqlQuote

/-- 422 "User name cannot be empty" (`create_user`, line 63). -/
def nameEmptyErr : HttpError := ⟨422, "User name cannot be empty"⟩

/-- 400 "User age cannot exceed 120 years" (`create_user`, line 67). -/
def ageOutOfRangeErr : HttpError := ⟨400, "User age cannot exceed 120 years"⟩

/-- 400 "User already exists" (`create_user`, line 74). -/
def conflictErr : HttpError := ⟨400, "User already exists"⟩

/-- 404 "User not found" (`delete_user`, line 117). -/
def notFoundErr : HttpError := ⟨404, "User not found"⟩

/-- 404 "No users found" (`get_average_age_by_group`, line 218). -/
def noRecordsErr : HttpError := ⟨404, "No users found"⟩

/-- 500 "Internal server error" (the `except Exception` branches). -/
def internalErr : HttpError := ⟨500, "Internal server error"⟩

/-- Modelled from the spec: `model.py` (the pydantic `UserCreate` request
model imported by `main.py`) is missing from the sources.  Per the spec a
candidate is a plain pair of text `name` and integer `age`, and "the source
never rejects negative ages; only the upper bound (>120) is validated", so
the model carries no field constraints of its own. -/
structure UserCreate where
  name : String
  age : Int
deriving DecidableEq, Repr

/-- `SELECT * FROM users WHERE name = :name` followed by `fetchone()`:
the first stored record with exactly that name, if any. -/
def lookupByName (db : Db) (name : String) : Option Record :=
  db.find? (fun r => r.name == name)

/-- Number of stored records carrying a given name. -/
def countName (db : Db) (n : String) : Nat :=
  (db.filter (fun r => r.name == n)).length

/-- The unique index on the `name` column: all stored names are distinct. -/
def namesNodup (db : Db) : Prop :=
  (db.map Record.name).Nodup

/-- Success message of `create_user`. -/
def createdMsg (name : String) : String :=
  "User " ++ sqS ++ name ++ sqS ++ " created successfully"

/-- Success message of `delete_user`. -/
def deletedMsg (name : String) : String :=
  "User " ++ sqS ++ name ++ sqS ++ " deleted"

/-- Success message of `upload_users`. -/
def uploadedMsg : String := "Users from CSV uploaded successfully"

/-- `create_user` (`main.py` lines 43-95): empty-name check, then the
`age > 120` check, then the parameterized existence lookup, then the ORM
insert and commit.  Every failure raises before any mutation, so the table
is returned unchanged on all error paths. -/
def createUser (data : UserCreate) (db : Db) : Except HttpError String × Db :=
  if data.name = "" then (.error nameEmptyErr, db)
  else if 120 < data.age then (.error ageOutOfRangeErr, db)
  else
    match lookupByName db data.name with
    | some _ => (.error conflictErr, db)
    | none => (.ok (createdMsg data.name), db ++ [⟨data.name, data.age⟩])

/-- `delete_user` (`main.py` lines 97-136): parameterized lookup, 404 when
absent, otherwise `DELETE FROM users WHERE name = :name` (which removes every
row with that name) and commit. -/
def deleteUser (name : String) (db : Db) : Except HttpError String × Db :=
  match lookupByName db name with
  | none => (.error notFoundErr, db)
  | some _ => (.ok (deletedMsg name), db.filter (fun r => r.name != name))

/-- A statement handed to `db.execute`: either a parameterized `text(...)`
statement with its bind parameters, or a raw string assembled by f-string
interpolation. -/
inductive Cmd where
  | paramStmt (template : String) (binds : List (String × String))
  | rawStmt (sql : String)
deriving DecidableEq, Repr

/-- Is the statement parameterized (structured data, no interpolation)? -/
def Cmd.isParam : Cmd → Bool
  | .paramStmt _ _ => true
  | .rawStmt _ => false

/-- Is the statement a raw assembled string? -/
def Cmd.isRaw (c : Cmd) : Bool := !c.isParam

/-- `f"SELECT 1 FROM users WHERE name = '{name}'"` (`main.py` line 182). -/
def selectRawSql (name : String) : String :=
  "SELECT 1 FROM users WHERE name = " ++ sqS ++ name ++ sqS

/-- `f"INSERT INTO users (name, age) VALUES ('{name}', {age})"`
(`main.py` line 186). -/
def insertRawSql (name : String) (age : Int) : String :=
  "INSERT INTO users (name, age) VALUES (" ++ sqS ++ name ++ sqS ++ ", "
    ++ toString age ++ ")"

/-- A value interpolated between single quotes yields a well-formed SQL
string literal exactly when it contains no single quote itself; a quote in
`name` makes the assembled statement malformed and the driver raises.
(Membership is tested on the character list of the string.) -/
def sqlStringSafe (s : String) : Bool := !(s.data.contains sqlQuote)

/-- Executing the raw existence lookup of the upload path: whether some row
with that name is visible to the session (read-your-writes: uncommitted
inserts of the same session are visible), or a driver error for a malformed
statement. -/
def execRawLookup (db : Db) (name : String) : Except Unit Bool :=
  if sqlStringSafe name then .ok (lookupByName db name).isSome else .error ()

/-- Executing the raw insert of the upload path (an integer `age` always
interpolates to a well-formed literal, so only `name` can break the
statement). -/
def execRawInsert (db : Db) (name : String) (age : Int) : Except Unit Db :=
  if sqlStringSafe name then .ok (db ++ [⟨name, age⟩]) else .error ()

deriving instance DecidableEq for Except

/-- One CSV row: (`Name`, `Age`). -/
abbrev Row := String × Int

/-- Result of the upload endpoint: the HTTP response, the persisted table
after the request, and the trace of statements handed to `db.execute`. -/
structure UploadResult where
  response : Except HttpError String
  db : Db
  trace : List Cmd
deriving DecidableEq, Repr

/-- The row loop of `upload_users` (`main.py` lines 178-187): for each row,
execute the raw existence lookup; when no row with that name is visible,
execute the raw insert.  No validation of name or age is performed.  The
session state `db` threads uncommitted inserts; `tr` accumulates the issued
statements.  A driver error stops the loop. -/
def runRows : List Row → Db → List Cmd → List Cmd × Except Unit Db
  | [], db, tr => (tr, .ok db)
  | (name, age) :: rest, db, tr =>
    let tr1 := tr ++ [Cmd.rawStmt (selectRawSql name)]
    match execRawLookup db name with
    | .error _ => (tr1, .error ())
    | .ok true => runRows rest db tr1
    | .ok false =>
      let tr2 := tr1 ++ [Cmd.rawStmt (insertRawSql name age)]
      match execRawInsert db name age with
      | .error _ => (tr2, .error ())
      | .ok db2 => runRows rest db2 tr2

/-- `upload_users` (`main.py` lines 163-199): run the row loop, then a single
`db.commit()`.  On any exception the handler returns HTTP 500 and `db.close()`
rolls the uncommitted session back, so the persisted table is unchanged. -/
def uploadUsers (rows : List Row) (db : Db) : UploadResult :=
  match runRows rows db [] with
  | (tr, .ok db2) => ⟨.ok uploadedMsg, db2, tr⟩
  | (tr, .error _) => ⟨.error internalErr, db, tr⟩

/-- Group key of a record: uppercase first character of `name`
(`df['name'].str[0].str.upper()`); an empty name has none (pandas produces
NaN and `groupby` drops it). -/
def groupKey (r : Record) : Option Char :=
  r.name.toList.head?.map Char.toUpper

/-- Ages of the records in a given group. -/
def agesInGroup (db : Db) (c : Char) : List Int :=
  (db.filter (fun r => groupKey r == some c)).map Record.age

/-- The distinct group keys present in the data. -/
def groupKeysOf (db : Db) : List Char :=
  (db.filterMap groupKey).dedup

/-- The mapping produced by `df.groupby('group')['age'].mean().to_dict()`:
defined on the group keys present in the data, value the arithmetic mean of
the group's ages (modelled exactly in `ℚ`; pandas computes in float). -/
def avgFun (db : Db) (c : Char) : Option ℚ :=
  if c ∈ groupKeysOf db then
    some (((agesInGroup db c).map (fun a => (a : ℚ))).sum / (agesInGroup db c).length)
  else none

/-- `get_average_age_by_group` (`main.py` lines 201-239): scan all rows,
404 when there are none, otherwise the group-mean dictionary. -/
def getAverageAgeByGroup (db : Db) : Except HttpError (Char → Option ℚ) :=
  if db.isEmpty then .error noRecordsErr else .ok (avgFun db)

/-- Spec-side description of the aggregate ("for each group compute the
arithmetic mean of `age`"): an entry exactly for the groups with at least one
record, value sum of ages over their number. -/
def groupMeanSpec (db : Db) (c : Char) : Option ℚ :=
  if agesInGroup db c = [] then none
  else some (((agesInGroup db c).map (fun a => (a : ℚ))).sum / (agesInGroup db c).length)

/-- The four-row batch of the spec's `ImportBatch` example. -/
def exampleBatch : List Row :=
  [("Alice", 30), ("Alice", 40), ("", 10), ("Bob", 999)]

/-- The record set of the spec's aggregation example. -/
def exampleDb : Db := [⟨"Alice", 30⟩, ⟨"Amy", 10⟩, ⟨"Bob", 20⟩]

/-! ## Basic facts about lookup and counting -/

theorem lookupByName_none_iff (db : Db) (n : String) :
    lookupByName db n = none ↔ ∀ r ∈ db, r.name ≠ n := by
  simp [lookupByName]

theorem countName_eq_zero_iff (db : Db) (n : String) :
    countName db n = 0 ↔ lookupByName db n = none := by
  simp [countName, List.length_eq_zero, lookupByName]

theorem countName_append (db : Db) (r : Record) (n : String) :
    countName (db ++ [r]) n = countName db n + (if r.name = n then 1 else 0) := by
  by_cases h : r.name = n
  · have hb : (r.name == n) = true := by simp [h]
    simp [countName, List.filter_append, List.filter, hb, h]
  · have hb : (r.name == n) = false := by simp [h]
    simp [countName, List.filter_append, List.filter, hb, h]

theorem lookupByName_append_of_none (l1 l2 : Db) (n : String)
    (h : lookupByName l1 n = none) :
    lookupByName (l1 ++ l2) n = lookupByName l2 n := by
  simp only [lookupByName, List.find?_append]
  simp only [lookupByName] at h
  rw [h, Option.none_or]

/-! ## Registry Service: validation order (C3) and the missing lower age
bound (C8) -/

/-- C3: `create_user` checks its rules in a fixed order with first failure
winning: an empty name yields `nameEmptyErr` (HTTP 422) regardless of the
age value, even when `age > 120`; `ageOutOfRangeErr` (HTTP 400) is produced
exactly for a non-empty name with `age > 120`; in both failure cases the
stored table is unchanged. -/
theorem create_validation_order (db : Db) (name : String) (age : Int) :
    (name = "" → createUser ⟨name, age⟩ db = (.error nameEmptyErr, db))
    ∧ (name ≠ "" → 120 < age →
        createUser ⟨name, age⟩ db = (.error ageOutOfRangeErr, db))
    ∧ ((createUser ⟨name, age⟩ db).1 = .error nameEmptyErr ↔ name = "")
    ∧ ((createUser ⟨name, age⟩ db).1 = .error ageOutOfRangeErr ↔
        (name ≠ "" ∧ 120 < age)) := by
  have hne1 : ¬ (nameEmptyErr = ageOutOfRangeErr) := by decide
  have hne2 : ¬ (ageOutOfRangeErr = nameEmptyErr) := by decide
  have hne3 : ¬ (conflictErr = nameEmptyErr) := by decide
  have hne4 : ¬ (conflictErr = ageOutOfRangeErr) := by decide
  by_cases h1 : name = ""
  · simp [createUser, h1, hne1, hne2]
  · by_cases h2 : 120 < age
    · simp [createUser, h1, h2, hne1, hne2]
    · cases hl : lookupByName db name with
      | some r => simp [createUser, h1, h2, hl, hne3, hne4]
      | none => simp [createUser, h1, h2, hl]

/-- Witness for `create_validation_order` at concrete inputs: an empty name
with age 999 fails `nameEmptyErr`, and a non-empty name with age 999 fails
`ageOutOfRangeErr`. -/
theorem create_validation_order_witness :
    createUser ⟨"", 999⟩ [] = (.error nameEmptyErr, [])
    ∧ createUser ⟨"Bob", 999⟩ [] = (.error ageOutOfRangeErr, []) :=
  ⟨(create_validation_order [] "" 999).1 rfl,
   (create_validation_order [] "Bob" 999).2.1 (by decide) (by decide)⟩

/-- C8: only the upper age bound is validated: a candidate with non-empty
name and `age ≤ 120` (negative ages included) is never rejected on validation
grounds, and when its name is free it is actually inserted. -/
theorem create_no_lower_age_bound (db : Db) (name : String) (age : Int)
    (h1 : name ≠ "") (h2 : age ≤ 120) :
    (createUser ⟨name, age⟩ db).1 ≠ .error ageOutOfRangeErr
    ∧ (createUser ⟨name, age⟩ db).1 ≠ .error nameEmptyErr
    ∧ (lookupByName db name = none →
        createUser ⟨name, age⟩ db = (.ok (createdMsg name), db ++ [⟨name, age⟩])) := by
  have h2' : ¬ (120 < age) := not_lt.mpr h2
  have hne3 : ¬ (conflictErr = nameEmptyErr) := by decide
  have hne4 : ¬ (conflictErr = ageOutOfRangeErr) := by decide
  cases hl : lookupByName db name with
  | some r => simp [createUser, h1, h2', hl, hne3, hne4]
  | none => simp [createUser, h1, h2', hl]

/-- Witness for `create_no_lower_age_bound`: a candidate with negative age
-5 is created successfully. -/
theorem create_no_lower_age_bound_witness :
    createUser ⟨"Neg", -5⟩ [] = (.ok (createdMsg "Neg"), [⟨"Neg", -5⟩]) :=
  (create_no_lower_age_bound [] "Neg" (-5) (by decide) (by decide)).2.2 rfl

/-- Facts forced by a successful `create_user` call: the name was non-empty,
the age within bound, no record with that name existed, and exactly the new
record was appended. -/
theorem createUser_ok_facts (db : Db) (name : String) (a : Int) (m : String)
    (h : (createUser ⟨name, a⟩ db).1 = .ok m) :
    name ≠ "" ∧ ¬ (120 < a) ∧ lookupByName db name = none
    ∧ (createUser ⟨name, a⟩ db).2 = db ++ [⟨name, a⟩] := by
  by_cases h1 : name = ""
  · simp [createUser, h1] at h
  · by_cases h2 : 120 < a
    · simp [createUser, h1, h2] at h
    · cases hl : lookupByName db name with
      | some r => simp [createUser, h1, h2, hl] at h
      | none => exact ⟨h1, h2, rfl, by simp [createUser, h1, h2, hl]⟩

/-- C4 counterexample: after `create_user("Alice", 30)` succeeds, a second
`create_user("Alice", 999)` fails with `ageOutOfRangeErr`, not with
`conflictErr` — validation runs before the duplicate check. -/
theorem create_duplicate_conflict_counterexample :
    (createUser ⟨"Alice", 30⟩ []).1 = .ok (createdMsg "Alice")
    ∧ (createUser ⟨"Alice", 999⟩ (createUser ⟨"Alice", 30⟩ []).2).1 =
        .error ageOutOfRangeErr
    ∧ ageOutOfRangeErr ≠ conflictErr := by decide

/-- C4 (amended): after a successful `create_user` for a name, a second
`create_user` for the same name leaves storage unchanged and exactly one
record with that name exists; the second call fails with `conflictErr`
when its age passes validation (`age ≤ 120`), and with `ageOutOfRangeErr`
when `age > 120`. -/
theorem create_duplicate_conflict (db : Db) (name : String) (a b : Int)
    (m : String) (h : (createUser ⟨name, a⟩ db).1 = .ok m) :
    countName (createUser ⟨name, a⟩ db).2 name = 1
    ∧ (createUser ⟨name, b⟩ (createUser ⟨name, a⟩ db).2).2 =
        (createUser ⟨name, a⟩ db).2
    ∧ (b ≤ 120 →
        (createUser ⟨name, b⟩ (createUser ⟨name, a⟩ db).2).1 = .error conflictErr)
    ∧ (120 < b →
        (createUser ⟨name, b⟩ (createUser ⟨name, a⟩ db).2).1 =
          .error ageOutOfRangeErr) := by
  obtain ⟨h1, h2, hl, hdb⟩ := createUser_ok_facts db name a m h
  have hc0 : countName db name = 0 := (countName_eq_zero_iff db name).mpr hl
  have hc1 : countName (createUser ⟨name, a⟩ db).2 name = 1 := by
    rw [hdb, countName_append, hc0]; simp
  have hl2 : lookupByName (db ++ [⟨name, a⟩]) name = some ⟨name, a⟩ := by
    rw [lookupByName_append_of_none db [⟨name, a⟩] name hl]
    simp [lookupByName, List.find?]
  refine ⟨hc1, ?_, ?_, ?_⟩
  · rw [hdb]
    by_cases hb : 120 < b
    · simp [createUser, h1, hb]
    · simp [createUser, h1, hb, hl2]
  · intro hble
    have hb : ¬ (120 < b) := not_lt.mpr hble
    rw [hdb]
    simp [createUser, h1, hb, hl2]
  · intro hb
    rw [hdb]
    simp [createUser, h1, hb]

/-- Witness for `create_duplicate_conflict`: the concrete duplicate pairs
("Alice",30)/("Alice",40) and ("Alice",30)/("Alice",999). -/
theorem create_duplicate_conflict_witness :
    (createUser ⟨"Alice", 40⟩ (createUser ⟨"Alice", 30⟩ []).2).1 =
      .error conflictErr
    ∧ (createUser ⟨"Alice", 999⟩ (createUser ⟨"Alice", 30⟩ []).2).1 =
      .error ageOutOfRangeErr
    ∧ countName (createUser ⟨"Alice", 30⟩ []).2 "Alice" = 1 :=
  ⟨(create_duplicate_conflict [] "Alice" 30 40 (createdMsg "Alice")
      (by decide)).2.2.1 (by decide),
   (create_duplicate_conflict [] "Alice" 30 999 (createdMsg "Alice")
      (by decide)).2.2.2 (by decide),
   (create_duplicate_conflict [] "Alice" 30 40 (createdMsg "Alice")
      (by decide)).1⟩

/-- With distinct stored names, at most one record carries any given name. -/
theorem nodup_countName_le_one (db : Db) (n : String) (h : namesNodup db) :
    countName db n ≤ 1 := by
  induction db with
  | nil => simp [countName]
  | cons a t ih =>
    have h' : (a.name :: t.map Record.name).Nodup := h
    have h1 : a.name ∉ t.map Record.name := (List.nodup_cons.mp h').1
    have h2 : namesNodup t := (List.nodup_cons.mp h').2
    cases hb : (a.name == n) with
    | false =>
      have : countName (a :: t) n = countName t n := by
        simp [countName, List.filter_cons, hb]
      rw [this]; exact ih h2
    | true =>
      have han : a.name = n := by simpa using hb
      have ht0 : countName t n = 0 := by
        rw [countName_eq_zero_iff, lookupByName_none_iff]
        intro r hr hrn
        exact h1 (han ▸ hrn ▸ List.mem_map_of_mem Record.name hr)
      have : countName (a :: t) n = countName t n + 1 := by
        simp [countName, List.filter_cons, hb]
      omega

/-- Deleting by name removes as many records as carried the name. -/
theorem length_filter_ne_add_countName (db : Db) (n : String) :
    (db.filter (fun r => r.name != n)).length + countName db n = db.length := by
  induction db with
  | nil => simp [countName]
  | cons a t ih =>
    cases hb : (a.name == n) with
    | false =>
      have hb' : (a.name != n) = true := by simp [bne, hb]
      have hc : countName (a :: t) n = countName t n := by
        simp [countName, List.filter_cons, hb]
      simp [List.filter_cons, hb', hc]
      omega
    | true =>
      have hb' : (a.name != n) = false := by simp [bne, hb]
      have hc : countName (a :: t) n = countName t n + 1 := by
        simp [countName, List.filter_cons, hb]
      simp [List.filter_cons, hb', hc]
      omega

/-- C5: `create_user` and `delete_user` mutate the stored table exactly once
on success and not at all on failure: every failed create leaves the table
unchanged, a successful create appends exactly the new record, a delete of
an absent name fails with `notFoundErr` leaving the table unchanged, and a
successful delete removes exactly the one record with that name (given the
unique index on names). -/
theorem create_delete_frame (cand : UserCreate) (name : String) (db : Db) :
    ((∃ e, (createUser cand db).1 = .error e) → (createUser cand db).2 = db)
    ∧ (∀ m, (createUser cand db).1 = .ok m →
        (createUser cand db).2 = db ++ [⟨cand.name, cand.age⟩])
    ∧ (lookupByName db name = none → deleteUser name db = (.error notFoundErr, db))
    ∧ (∀ m, (deleteUser name db).1 = .ok m →
        (deleteUser name db).2 = db.filter (fun r => r.name != name))
    ∧ (namesNodup db → ∀ m, (deleteUser name db).1 = .ok m →
        ((deleteUser name db).2).length + 1 = db.length) := by
  refine ⟨?_, ?_, ?_, ?_, ?_⟩
  · rintro ⟨e, he⟩
    by_cases h1 : cand.name = ""
    · simp [createUser, h1]
    · by_cases h2 : 120 < cand.age
      · simp [createUser, h1, h2]
      · cases hl : lookupByName db cand.name with
        | some r => simp [createUser, h1, h2, hl]
        | none => simp [createUser, h1, h2, hl] at he
  · intro m hm
    exact (createUser_ok_facts db cand.name cand.age m hm).2.2.2
  · intro hl
    simp [deleteUser, hl]
  · intro m hm
    cases hl : lookupByName db name with
    | none => simp [deleteUser, hl] at hm
    | some r => simp [deleteUser, hl]
  · intro hnd m hm
    cases hl : lookupByName db name with
    | none => simp [deleteUser, hl] at hm
    | some r =>
      have hl' : db.find? (fun x => x.name == name) = some r := hl
      have hrn : r.name = name := by simpa using List.find?_some hl'
      have hmem : r ∈ db.filter (fun x => x.name == name) :=
        List.mem_filter.mpr ⟨List.mem_of_find?_eq_some hl', by simp [hrn]⟩
      have hge : 1 ≤ countName db name := by
        have hpos : 0 < (db.filter (fun x => x.name == name)).length :=
          List.length_pos.mpr (List.ne_nil_of_mem hmem)
        simpa [countName] using hpos
      have hle : countName db name ≤ 1 := nodup_countName_le_one db name hnd
      have hc : countName db name = 1 := le_antisymm hle hge
      have hlen := length_filter_ne_add_countName db name
      have hdel : (deleteUser name db).2 = db.filter (fun r => r.name != name) := by
        simp [deleteUser, hl]
      rw [hdel]
      omega

/-- Witness for `create_delete_frame`: a failed create leaves the empty table
empty, deleting an absent name fails with `notFoundErr`, and deleting the one
stored record shrinks the table by one. -/
theorem create_delete_frame_witness :
    (createUser ⟨"", 5⟩ []).2 = []
    ∧ deleteUser "Ghost" [] = (.error notFoundErr, [])
    ∧ (deleteUser "Alice" [⟨"Alice", 30⟩]).2.length + 1 =
        ([⟨"Alice", 30⟩] : Db).length :=
  ⟨(create_delete_frame ⟨"", 5⟩ "x" []).1 ⟨nameEmptyErr, by decide⟩,
   (create_delete_frame ⟨"", 5⟩ "Ghost" []).2.2.1 rfl,
   (create_delete_frame ⟨"", 5⟩ "Alice" [⟨"Alice", 30⟩]).2.2.2.2
     (by simp [namesNodup]) (deletedMsg "Alice") (by decide)⟩

/-! ## Batch upload: loop invariants -/

/-- Every statement the row loop appends to the trace is a raw assembled
string. -/
theorem runRows_trace_raw (rows : List Row) : ∀ (db : Db) (tr : List Cmd),
    tr.all Cmd.isRaw = true → ((runRows rows db tr).1.all Cmd.isRaw) = true := by
  induction rows with
  | nil => intro db tr h; simpa [runRows] using h
  | cons row rest ih =>
    intro db tr h
    obtain ⟨name, age⟩ := row
    have htr1 : (tr ++ [Cmd.rawStmt (selectRawSql name)]).all Cmd.isRaw = true := by
      simp [List.all_append, h, Cmd.isRaw, Cmd.isParam]
    cases hs : sqlStringSafe name with
    | false => simp [runRows, execRawLookup, hs, htr1]
    | true =>
      cases hl : (lookupByName db name).isSome with
      | true =>
        simp only [runRows, execRawLookup, hs, if_true, hl]
        exact ih db _ htr1
      | false =>
        have htr2 : ((tr ++ [Cmd.rawStmt (selectRawSql name)])
            ++ [Cmd.rawStmt (insertRawSql name age)]).all Cmd.isRaw = true := by
          simp [List.all_append, h, Cmd.isRaw, Cmd.isParam]
        simp only [runRows, execRawLookup, execRawInsert, hs, if_true, hl]
        exact ih _ _ htr2

/-- When no row's name contains a quote, the loop reaches the end and
returns an updated table. -/
theorem runRows_ok_of_safe (rows : List Row) : ∀ (db : Db) (tr : List Cmd),
    (rows.all (fun r => sqlStringSafe r.1)) = true →
    ∃ db2, (runRows rows db tr).2 = .ok db2 := by
  induction rows with
  | nil => intro db tr _; exact ⟨db, rfl⟩
  | cons row rest ih =>
    intro db tr h
    obtain ⟨name, age⟩ := row
    rw [List.all_cons] at h
    have hs : sqlStringSafe name = true := (Bool.and_eq_true .. ▸ h).1
    have hrest : rest.all (fun r => sqlStringSafe r.1) = true :=
      (Bool.and_eq_true .. ▸ h).2
    cases hl : (lookupByName db name).isSome with
    | true =>
      simp only [runRows, execRawLookup, hs, if_true, hl]
      exact ih db _ hrest
    | false =>
      simp only [runRows, execRawLookup, execRawInsert, hs, if_true, hl]
      exact ih _ _ hrest

/-- The loop never duplicates a name: if at most one stored record carries a
name when the loop starts, the same holds when it finishes, because the
per-row existence check sees the session's own earlier (uncommitted)
inserts. -/
theorem runRows_countName (rows : List Row) :
    ∀ (db db2 : Db) (tr tr2 : List Cmd) (n : String), countName db n ≤ 1 →
    runRows rows db tr = (tr2, .ok db2) → countName db2 n ≤ 1 := by
  induction rows with
  | nil =>
    intro db db2 tr tr2 n h heq
    simp [runRows] at heq
    exact heq.2 ▸ h
  | cons row rest ih =>
    intro db db2 tr tr2 n h heq
    obtain ⟨name, age⟩ := row
    cases hs : sqlStringSafe name with
    | false => simp [runRows, execRawLookup, hs] at heq
    | true =>
      cases hl : (lookupByName db name).isSome with
      | true =>
        simp only [runRows, execRawLookup, hs, if_true, hl] at heq
        exact ih db db2 _ tr2 n h heq
      | false =>
        simp only [runRows, execRawLookup, execRawInsert, hs, if_true, hl] at heq
        have hc : countName (db ++ [⟨name, age⟩]) n ≤ 1 := by
          rw [countName_append]
          by_cases hn : name = n
          · have hnone : lookupByName db name = none :=
              Option.not_isSome_iff_eq_none.mp (by simp [hl])
            have h0 : countName db n = 0 := by
              rw [countName_eq_zero_iff, ← hn]
              exact hnone
            simp [h0, hn]
          · simpa [hn] using h
        exact ih _ db2 _ tr2 n hc heq

/-! ## Batch upload: the claims -/

/-- C1 counterexample: on the spec's four-row batch against empty storage the
code does not end with only `Alice/30` stored: the rows with empty name and
with age 999 are inserted as well, because the upload path runs no
validation. -/
theorem upload_example_batch_counterexample :
    (uploadUsers exampleBatch []).db ≠ [⟨"Alice", 30⟩]
    ∧ Record.mk "" 10 ∈ (uploadUsers exampleBatch []).db
    ∧ Record.mk "Bob" 999 ∈ (uploadUsers exampleBatch []).db := by decide

/-- C1 (amended): on the batch [("Alice",30), ("Alice",40), ("", 10),
("Bob", 999)] against empty storage, the code inserts `Alice/30`, skips the
duplicate `Alice/40` (only a lookup, no insert, is issued for it), and —
with no validator run on any row — also inserts `""/10` and `Bob/999`;
the response is a single success message and the final table holds the
three inserted records. -/
theorem upload_example_batch_actual :
    (uploadUsers exampleBatch []).response = .ok uploadedMsg
    ∧ (uploadUsers exampleBatch []).db = [⟨"Alice", 30⟩, ⟨"", 10⟩, ⟨"Bob", 999⟩]
    ∧ (uploadUsers exampleBatch []).trace =
      [Cmd.rawStmt (selectRawSql "Alice"), Cmd.rawStmt (insertRawSql "Alice" 30),
       Cmd.rawStmt (selectRawSql "Alice"), Cmd.rawStmt (selectRawSql ""),
       Cmd.rawStmt (insertRawSql "" 10), Cmd.rawStmt (selectRawSql "Bob"),
       Cmd.rawStmt (insertRawSql "Bob" 999)] := by decide

/-- C2 counterexample: the upload response carries no per-row outcome
report — two batches with different row counts and different per-row
outcomes get the identical constant response — and a storage error on one
row aborts the whole batch: with a first row whose name embeds a quote, the
valid second row ("Bob", 2) is never inserted and the call fails with the
internal error. -/
theorem upload_report_counterexample :
    (uploadUsers [("Alice", 30)] []).response =
      (uploadUsers [("Alice", 30), ("Alice", 40)] []).response
    ∧ (uploadUsers [(sqS ++ "x", 1), ("Bob", 2)] []).response = .error internalErr
    ∧ (uploadUsers [(sqS ++ "x", 1), ("Bob", 2)] []).db = [] := by decide

/-- C2 (amended): the upload endpoint's return value is always either the
one constant success message or the undifferentiated internal error — it
communicates no per-row outcomes, counts, or failing rows; when no row's
name breaks the assembled SQL, every row is processed and the constant
success message is returned. -/
theorem upload_response_shape (rows : List Row) (db : Db) :
    ((uploadUsers rows db).response = .ok uploadedMsg
      ∨ (uploadUsers rows db).response = .error internalErr)
    ∧ ((rows.all (fun r => sqlStringSafe r.1)) = true →
        (uploadUsers rows db).response = .ok uploadedMsg) := by
  constructor
  · cases heq : runRows rows db [] with
    | mk tr res =>
      cases res with
      | ok db2 => simp [uploadUsers, heq]
      | error e => simp [uploadUsers, heq]
  · intro hsafe
    obtain ⟨db2, h2⟩ := runRows_ok_of_safe rows db [] hsafe
    cases heq : runRows rows db [] with
    | mk tr res =>
      rw [heq] at h2
      cases res with
      | ok d => simp [uploadUsers, heq]
      | error e => simp at h2

/-- Witness for `upload_response_shape`: a single quote-free row uploads
with the constant success message. -/
theorem upload_response_shape_witness :
    (uploadUsers [("Alice", 30)] []).response = .ok uploadedMsg :=
  (upload_response_shape [("Alice", 30)] []).2 (by decide)

/-- C6: the per-row existence check reflects cumulative session state, so
the loop never inserts a second record for a name already inserted earlier
in the same batch: a table with at most one record per name keeps that bound
through an upload, and concretely the batch [("Alice",30), ("Alice",40)]
against empty storage stores `Alice/30` only. -/
theorem upload_cumulative_duplicate :
    (∀ (rows : List Row) (db : Db) (n : String), countName db n ≤ 1 →
      countName ((uploadUsers rows db).db) n ≤ 1)
    ∧ (uploadUsers [("Alice", 30), ("Alice", 40)] []).db = [⟨"Alice", 30⟩] := by
  constructor
  · intro rows db n h
    cases heq : runRows rows db [] with
    | mk tr res =>
      cases res with
      | ok db2 =>
        have hdb : (uploadUsers rows db).db = db2 := by simp [uploadUsers, heq]
        rw [hdb]
        exact runRows_countName rows db db2 [] tr n h heq
      | error e =>
        have hdb : (uploadUsers rows db).db = db := by simp [uploadUsers, heq]
        rw [hdb]
        exact h
  · decide

/-- Witness for `upload_cumulative_duplicate` on the spec's four-row batch
from empty storage. -/
theorem upload_cumulative_duplicate_witness :
    countName ((uploadUsers exampleBatch []).db) "Alice" ≤ 1 :=
  upload_cumulative_duplicate.1 exampleBatch [] "Alice" (by decide)

/-- C9 counterexample: the statements the upload path issues are raw
strings with the row's name textually interpolated between quotes — for the
single row ("Alice", 30) the issued trace consists of the two interpolated
strings and none of its statements is parameterized. -/
theorem upload_parameterized_counterexample :
    (uploadUsers [("Alice", 30)] []).trace =
      [Cmd.rawStmt (selectRawSql "Alice"), Cmd.rawStmt (insertRawSql "Alice" 30)]
    ∧ ((uploadUsers [("Alice", 30)] []).trace.all Cmd.isParam) = false
    ∧ selectRawSql "Alice" =
        "SELECT 1 FROM users WHERE name = " ++ sqS ++ "Alice" ++ sqS := by decide

/-- C9 (amended): every statement the batch import path hands to the storage
collaborator is a raw command string assembled by textual interpolation of
the row's values; none passes them as structured, parameterized data. -/
theorem upload_all_stmts_raw (rows : List Row) (db : Db) :
    ((uploadUsers rows db).trace.all Cmd.isRaw) = true := by
  cases heq : runRows rows db [] with
  | mk tr res =>
    have htr : tr.all Cmd.isRaw = true := by
      have h := runRows_trace_raw rows db [] rfl
      rw [heq] at h
      simpa using h
    cases res with
    | ok db2 => simpa [uploadUsers, heq] using htr
    | error e => simpa [uploadUsers, heq] using htr

/-- C10: the upload is all-or-nothing: a single commit happens after the
loop, so when any row raises, the handler reports the one undifferentiated
internal error and the rolled-back table equals the pre-batch table; the
only other outcome is the constant success response. -/
theorem upload_all_or_nothing (rows : List Row) (db : Db) :
    ((uploadUsers rows db).response = .ok uploadedMsg
      ∨ (uploadUsers rows db).response = .error internalErr)
    ∧ ((uploadUsers rows db).response = .error internalErr →
        (uploadUsers rows db).db = db)
    ∧ (∀ e, (uploadUsers rows db).response = .error e → e = internalErr) := by
  cases heq : runRows rows db [] with
  | mk tr res =>
    cases res with
    | ok db2 =>
      have h1 : uploadUsers rows db = ⟨.ok uploadedMsg, db2, tr⟩ := by
        simp [uploadUsers, heq]
      rw [h1]
      simp
    | error e =>
      have h1 : uploadUsers rows db = ⟨.error internalErr, db, tr⟩ := by
        simp [uploadUsers, heq]
      rw [h1]
      simp

/-- Witness for `upload_all_or_nothing`: a batch whose first row's name
embeds a quote fails and leaves the empty table empty. -/
theorem upload_all_or_nothing_witness :
    (uploadUsers [(sqS ++ "x", 1), ("Bob", 2)] []).db = [] :=
  (upload_all_or_nothing [(sqS ++ "x", 1), ("Bob", 2)] []).2.1 (by decide)

/-! ## Aggregator -/

/-- A group key is present in the data exactly when its group has at least
one record. -/
theorem mem_groupKeysOf (db : Db) (c : Char) :
    c ∈ groupKeysOf db ↔ agesInGroup db c ≠ [] := by
  rw [groupKeysOf, List.mem_dedup, List.mem_filterMap, agesInGroup]
  constructor
  · rintro ⟨r, hr, hkey⟩ hnil
    rw [List.map_eq_nil_iff, List.filter_eq_nil_iff] at hnil
    exact hnil r hr (by simp [hkey])
  · intro hne
    by_contra hno
    push_neg at hno
    apply hne
    rw [List.map_eq_nil_iff, List.filter_eq_nil_iff]
    intro r hr hkey
    exact hno r hr (by simpa using hkey)

/-- The dictionary computed through the derived `group` column agrees with
the spec's description of the aggregate. -/
theorem avgFun_eq_groupMeanSpec (db : Db) (c : Char) :
    avgFun db c = groupMeanSpec db c := by
  by_cases h : agesInGroup db c = []
  · have hmem : c ∉ groupKeysOf db := fun hc => (mem_groupKeysOf db c).mp hc h
    simp [avgFun, groupMeanSpec, hmem, h]
  · have hmem : c ∈ groupKeysOf db := (mem_groupKeysOf db c).mpr h
    simp [avgFun, groupMeanSpec, hmem, h]

/-- C7: the aggregate fails with `noRecordsErr` exactly on an empty record
set; on a non-empty set it returns a mapping defined on exactly the group
keys present in the data (uppercase first character of the name), each bound
to the arithmetic mean of the ages in that group; on the example set
Alice/30, Amy/10, Bob/20 the mapping is exactly A ↦ 20, B ↦ 20. -/
theorem average_age_by_group_spec :
    (∀ db : Db, getAverageAgeByGroup db = .error noRecordsErr ↔ db = [])
    ∧ (∀ (db : Db) (f : Char → Option ℚ) (c : Char),
        getAverageAgeByGroup db = .ok f → f c = groupMeanSpec db c)
    ∧ getAverageAgeByGroup exampleDb = .ok (avgFun exampleDb)
    ∧ (∀ c : Char, avgFun exampleDb c =
        if c = 'A' then some 20 else if c = 'B' then some 20 else none) := by
  refine ⟨?_, ?_, ?_, ?_⟩
  · intro db
    cases db with
    | nil => simp [getAverageAgeByGroup]
    | cons a t => simp [getAverageAgeByGroup]
  · intro db f c hok
    cases db with
    | nil => simp [getAverageAgeByGroup] at hok
    | cons a t =>
      have hf : avgFun (a :: t) = f := by
        simpa [getAverageAgeByGroup] using hok
      rw [← hf]
      exact avgFun_eq_groupMeanSpec (a :: t) c
  · rfl
  · intro c
    have hg : groupKeysOf exampleDb = ['A', 'B'] := by decide
    by_cases hA : c = 'A'
    · subst hA
      have h1 : agesInGroup exampleDb 'A' = [30, 10] := by decide
      rw [avgFun, if_pos (by decide : 'A' ∈ groupKeysOf exampleDb), h1]
      norm_num
    · by_cases hB : c = 'B'
      · subst hB
        have h1 : agesInGroup exampleDb 'B' = [20] := by decide
        rw [avgFun, if_pos (by decide : 'B' ∈ groupKeysOf exampleDb), h1]
        simp [hA]
      · have hmem : c ∉ groupKeysOf exampleDb := by
          rw [hg]
          simp [hA, hB]
        rw [avgFun, if_neg hmem]
        simp [hA, hB]

/-- Witness for `average_age_by_group_spec`: the empty set fails with
`noRecordsErr`, and the returned mapping on the example set agrees with the
spec-side group mean at an arbitrary concrete key. -/
theorem average_age_by_group_witness :
    getAverageAgeByGroup [] = .error noRecordsErr
    ∧ avgFun exampleDb 'Z' = groupMeanSpec exampleDb 'Z' :=
  ⟨(average_age_by_group_spec.1 []).mpr rfl,
   average_age_by_group_spec.2.1 exampleDb (avgFun exampleDb) (Char.ofNat 90)
     average_age_by_group_spec.2.2.1⟩
